import Mathlib

/-!
Verification of the NovelKit build pipeline (`src/build_novelkit.py`).

The Python functions are shallowly embedded over `List Char` (Python `str`
values).  All definitions are structural or fuel-bounded recursions so that
concrete instances evaluate inside the kernel (`decide`/`rfl`).

Embedding conventions:
* Python `str` is `Chars := List Char`; a Lean string literal `s` is embedded
  as `strOf s = s.data`.
* `str.strip()` is `pyStrip` (the six ASCII whitespace characters; exotic
  Unicode whitespace is outside the inputs this program handles).
* `str.strip(ch)` (strip all leading/trailing copies of `ch`) is `stripAll`.
* `str.lower()` is `toLowerL` (ASCII case folding; the only case-insensitive
  comparisons in the source are against the ASCII literals ".md"/"novel-").
* `str.split(sep, maxsplit)` for the `"---"` delimiter is `splitTripleDashMax`.
* `str.replace(old, new)` for the (always non-empty) placeholder patterns is
  `pyReplace`, a fuel-bounded left-to-right non-overlapping scan.
* Python dicts (insertion ordered, update-in-place, last write wins) are
  association lists manipulated through `setKey`/`getKey`.
-/

namespace NovelKit

abbrev Chars := List Char

def strOf (s : String) : Chars := s.data

/-- The six ASCII characters stripped by Python `str.strip()`. -/
def isPySpace (c : Char) : Bool :=
  c == ' ' || c == '\t' || c == '\n' || c == '\r' || c == '\x0b' || c == '\x0c'

/-- Python `s.strip()`. -/
def pyStrip (s : Chars) : Chars :=
  ((s.dropWhile isPySpace).reverse.dropWhile isPySpace).reverse

/-- Python `s.strip(q)` for a single character `q`: removes every leading and
trailing occurrence of `q` (no pairing or matching is required). -/
def stripAll (q : Char) (s : Chars) : Chars :=
  ((s.dropWhile (fun c => c == q)).reverse.dropWhile (fun c => c == q)).reverse

/-- The value normalisation `value.strip().strip('"').strip("'")` used by
`parse_frontmatter` (lines 404, 411, 444). -/
def dequote (v : Chars) : Chars :=
  stripAll '\x27' (stripAll '"' (pyStrip v))

/-- Python `s.startswith(pat)` / `List.isPrefixOf`, written as plain structural
recursion so the kernel evaluates it. -/
def isPre : Chars → Chars → Bool
  | [], _ => true
  | _ :: _, [] => false
  | a :: as, b :: bs => a == b && isPre as bs

/-- Python `s.endswith(pat)`. -/
def isSuf (pat s : Chars) : Bool :=
  isPre pat.reverse s.reverse

/-- Python `s.lower()` (ASCII). -/
def toLowerL (s : Chars) : Chars := s.map Char.toLower

/-- Python `s.split(sep)` for a single-character separator. -/
def splitChar (sep : Char) : Chars → List Chars
  | [] => [[]]
  | c :: rest =>
    if c == sep then [] :: splitChar sep rest
    else
      match splitChar sep rest with
      | t :: ts => (c :: t) :: ts
      | [] => [[c]]

/-- Python `s.split("---", k)`: split on at most `k` leftmost non-overlapping
occurrences of the three-character delimiter. -/
def splitTripleDashMax : Nat → Chars → List Chars
  | _, [] => [[]]
  | 0, s => [s]
  | Nat.succ k, '-' :: '-' :: '-' :: rest => [] :: splitTripleDashMax k rest
  | k, c :: rest =>
    match splitTripleDashMax k rest with
    | t :: ts => (c :: t) :: ts
    | [] => [[c]]

/-- Python `s.split(":", 1)`: the part before the first colon and the part
after it (the second component is `[]` when `s` has no colon; every caller
guards with a `":" in s` membership test first). -/
def splitColon (s : Chars) : Chars × Chars :=
  (s.takeWhile (fun c => !(c == ':')), (s.dropWhile (fun c => !(c == ':'))).drop 1)

/-- One step of Python `s.replace(old, new)`; `fuel` bounds the scan and is
instantiated with `s.length`, which suffices because every step consumes at
least one character.  All patterns used by the build script are non-empty. -/
def replaceFuel (old new : Chars) : Nat → Chars → Chars
  | _, [] => []
  | 0, s => s
  | Nat.succ f, c :: rest =>
    if old ≠ [] ∧ isPre old (c :: rest) = true then
      new ++ replaceFuel old new f (List.drop (old.length - 1) rest)
    else c :: replaceFuel old new f rest

/-- Python `s.replace(old, new)` (left-to-right, non-overlapping). -/
def pyReplace (old new s : Chars) : Chars :=
  replaceFuel old new s.length s

/-- Python dict lookup `m.get(k)` on an association list. -/
def getKey {α : Type} : List (Chars × α) → Chars → Option α
  | [], _ => none
  | (k0, v0) :: rest, k => if k0 = k then some v0 else getKey rest k

/-- Python dict assignment `m[k] = v`: update in place when the key exists
(keeping its position and original key object), append otherwise. -/
def setKey {α : Type} : List (Chars × α) → Chars → α → List (Chars × α)
  | [], k, v => [(k, v)]
  | (k0, v0) :: rest, k, v =>
    if k0 = k then (k0, v) :: rest else (k0, v0) :: setKey rest k v

/-! ## `to_novel_command_name` (lines 321-354) -/

/-- The fragment list computed by `to_novel_command_name`: drop a trailing
`.md` case-insensitively, drop a leading `novel-` case-insensitively, split on
`-` and discard empty fragments (lines 337-347). -/
def novel_name_parts (src_name : Chars) : List Chars :=
  let base0 :=
    if isSuf (strOf ".md") (toLowerL src_name) = true then
      src_name.dropLast.dropLast.dropLast
    else src_name
  let base :=
    if isPre (strOf "novel-") (toLowerL base0) = true then base0.drop 6 else base0
  (splitChar '-' base).filter (fun p => !p.isEmpty)

/-- `to_novel_command_name(src_name, extension)` (lines 321-354): falls back
to the original name (ignoring `extension`) when no fragments remain. -/
def to_novel_command_name (src_name extension : Chars) : Chars :=
  let parts := novel_name_parts src_name
  if parts.isEmpty then src_name
  else strOf "novel." ++ List.intercalate (strOf ".") parts ++ extension

/-- The normaliser as the specification words it (§4.3): drop `.md`, drop the
`novel-` prefix, split on `-`, discard empty fragments, join with `.`, prefix
with `novel.`; return the input unchanged when no fragments remain. -/
def normalizeSpec (s : Chars) : Chars :=
  let frags := novel_name_parts s
  if frags.isEmpty then s
  else strOf "novel." ++ List.intercalate (strOf ".") frags

/-! ## `parse_frontmatter` (lines 357-417) -/

/-- A front-matter value: every key maps to a string except `scripts`, which
receives the nested mapping at the end of the parse (line 415). -/
inductive FMVal : Type
  | str (v : Chars)
  | dict (m : List (Chars × Chars))
deriving DecidableEq

/-- The loop state of `parse_frontmatter`'s line scanner (lines 380-412). -/
structure FMState where
  in_scripts : Bool
  scripts : List (Chars × Chars)
  frontmatter : List (Chars × Chars)
deriving DecidableEq

/-- Python `line.startswith(" ") or line.startswith("\t")` (lines 395, 401). -/
def startsWithSpaceOrTab (line : Chars) : Bool :=
  isPre (strOf " ") line || isPre (strOf "\t") line

/-- One iteration of the line loop (lines 383-412).  The source first clears
`in_scripts` when a top-level line with a colon arrives (line 395) and then
falls into the top-level branch with the same line; here the two steps are
fused into the third branch, which is reachable exactly under the line-395
condition and always stores the entry since `":" in line_stripped` is part of
that condition. -/
def processLine (st : FMState) (line : Chars) : FMState :=
  if pyStrip line = [] then st
  else if pyStrip line = strOf "scripts:" then { st with in_scripts := true }
  else if st.in_scripts = true ∧ ':' ∈ pyStrip line ∧ startsWithSpaceOrTab line = false then
    { st with in_scripts := false,
              frontmatter := setKey st.frontmatter
                (pyStrip (splitColon (pyStrip line)).1)
                (dequote (splitColon (pyStrip line)).2) }
  else if st.in_scripts = true then
    if startsWithSpaceOrTab line = true ∧ ':' ∈ pyStrip line then
      { st with scripts := setKey st.scripts
                  (pyStrip (splitColon (pyStrip line)).1)
                  (dequote (splitColon (pyStrip line)).2) }
    else st
  else if ':' ∈ pyStrip line then
    { st with frontmatter := setKey st.frontmatter
                (pyStrip (splitColon (pyStrip line)).1)
                (dequote (splitColon (pyStrip line)).2) }
  else st

/-- The full line loop over `frontmatter_text.split("\n")`. -/
def parse_fm_lines (fm_text : Chars) : FMState :=
  (splitChar '\n' fm_text).foldl processLine
    { in_scripts := false, scripts := [], frontmatter := [] }

/-- Final assembly (lines 414-415): lift the string entries and attach the
nested mapping under `scripts` only when it is non-empty. -/
def attach_scripts (st : FMState) : List (Chars × FMVal) :=
  let fm := st.frontmatter.map (fun p => (p.1, FMVal.str p.2))
  if st.scripts.isEmpty then fm
  else setKey fm (strOf "scripts") (FMVal.dict st.scripts)

structure ParseResult where
  frontmatter : List (Chars × FMVal)
  body : Chars
deriving DecidableEq

/-- `parse_frontmatter(content)` (lines 357-417). -/
def parse_frontmatter (content : Chars) : ParseResult :=
  if isPre (strOf "---") content = false then { frontmatter := [], body := content }
  else
    let parts := splitTripleDashMax 2 content
    if parts.length < 3 then { frontmatter := [], body := content }
    else
      { frontmatter := attach_scripts (parse_fm_lines (pyStrip (parts.get! 1))),
        body := parts.get! 2 }

/-! ## `extract_scripts_from_content` (lines 420-447)

The source scans the raw content with the Python regular expression
`^scripts:\s*\n((?:\s+[a-z]+:.*\n?)+)` under `re.MULTILINE` and then parses
the captured block line by line.  For this one fixed pattern the backtracking
search is deterministic and is embedded directly:

* a candidate is any line beginning with the literal `scripts:`;
* `\s*\n` succeeds exactly when the whitespace run after `scripts:` contains a
  newline before its final character (greedily, the engine consumes up to the
  last such newline, leaving a non-empty `\s+` for the first group iteration);
* each group iteration consumes a maximal whitespace run (which may span
  newlines), a maximal non-empty run of `[a-z]`, a literal `:`, the rest of
  the line, and the following newline if present; the group stops at the
  first position where this fails, and needs at least one iteration;
* the engine never revisits earlier greedy choices, because nothing follows
  the group in the pattern.

The captured text's leading whitespace (part of the `\s*`/first `\s+` run) is
omitted here: it contributes only whitespace-only line fragments, which the
line parser below strips and skips, so the resulting mapping is unchanged. -/

def isLowerAZ (c : Char) : Bool := 'a' ≤ c && c ≤ 'z'

/-- One `[a-z]+:.*\n?` tail (the part of a group iteration after its
whitespace run): returns the consumed text and the remainder. -/
def parseUnitTail (s : Chars) : Option (Chars × Chars) :=
  let low := s.takeWhile isLowerAZ
  let r2 := s.dropWhile isLowerAZ
  if low.isEmpty then none
  else
    match r2 with
    | ':' :: r3 =>
      let line := r3.takeWhile (fun c => !(c == '\n'))
      let r4 := r3.dropWhile (fun c => !(c == '\n'))
      match r4 with
      | '\n' :: r5 => some (low ++ ':' :: (line ++ ['\n']), r5)
      | _ => some (low ++ ':' :: line, r4)
    | _ => none

/-- One full `\s+[a-z]+:.*\n?` group iteration. -/
def parseUnit (s : Chars) : Option (Chars × Chars) :=
  let ws := s.takeWhile isPySpace
  let r1 := s.dropWhile isPySpace
  if ws.isEmpty then none
  else
    match parseUnitTail r1 with
    | some (u, r) => some (ws ++ u, r)
    | none => none

/-- Greedy repetition of group iterations; each iteration consumes at least
one character, so `fuel = s.length` suffices. -/
def scanUnits : Nat → Chars → Chars
  | 0, _ => []
  | Nat.succ f, s =>
    match parseUnit s with
    | some (u, r) => u ++ scanUnits f r
    | none => []

/-- Try to match the regular expression with its `^scripts:` anchored at the
start of `after`'s predecessor line; `after` is the text following the
literal `scripts:`. -/
def matchScriptsAt (after : Chars) : Option Chars :=
  let w := after.takeWhile isPySpace
  let rest := after.dropWhile isPySpace
  if w.dropLast.contains '\n' then
    match parseUnitTail rest with
    | some (u, r2) => some (u ++ scanUnits r2.length r2)
    | none => none
  else none

/-- `re.search` under `re.MULTILINE`: try each line start from the top,
returning the first capture. -/
def findScriptsAux : Nat → Chars → Option Chars
  | 0, _ => none
  | Nat.succ f, s =>
    match (if isPre (strOf "scripts:") s = true then matchScriptsAt (s.drop 8) else none) with
    | some cap => some cap
    | none =>
      match s.dropWhile (fun c => !(c == '\n')) with
      | _ :: rest => findScriptsAux f rest
      | [] => none

/-- The per-line parse of the captured block (lines 436-445). -/
def parseScriptLines (txt : Chars) : List (Chars × Chars) :=
  (splitChar '\n' txt).foldl
    (fun m line =>
      let l := pyStrip line
      if l = [] then m
      else if ':' ∈ l then
        setKey m (pyStrip (splitColon l).1) (dequote (splitColon l).2)
      else m)
    []

/-- `extract_scripts_from_content(content)` (lines 420-447). -/
def extract_scripts_from_content (content : Chars) : List (Chars × Chars) :=
  match findScriptsAux (content.length + 1) content with
  | some cap => parseScriptLines cap
  | none => []

/-! ## The profile registry `AI_ENV_CONFIG` (lines 65-175) -/

structure AIConfig where
  folder : Chars
  format : Chars
  arg_format : Chars
  name_converter : Chars
deriving DecidableEq

/-- A `(folder, format, arg_format)` profile entry; every profile uses the
single `to_novel_command_name` naming strategy. -/
def mkCfg (folder format arg_format : String) : AIConfig :=
  { folder := strOf folder, format := strOf format,
    arg_format := strOf arg_format,
    name_converter := strOf "to_novel_command_name" }

/-- The static registry (lines 65-175), in source order. -/
def AI_ENV_CONFIG : List (Chars × AIConfig) :=
  [ (strOf "claude", mkCfg ".claude/commands" "md" "$ARGUMENTS"),
    (strOf "gemini", mkCfg ".gemini/commands" "toml" "\x7b\x7bargs\x7d\x7d"),
    (strOf "copilot", mkCfg ".github/agents" "agent.md" "$ARGUMENTS"),
    (strOf "cursor-agent", mkCfg ".cursor/commands" "md" "$ARGUMENTS"),
    (strOf "cursor", mkCfg ".cursor/commands" "md" "$ARGUMENTS"),
    (strOf "qwen", mkCfg ".qwen/commands" "toml" "\x7b\x7bargs\x7d\x7d"),
    (strOf "opencode", mkCfg ".opencode/command" "md" "$ARGUMENTS"),
    (strOf "windsurf", mkCfg ".windsurf/workflows" "md" "$ARGUMENTS"),
    (strOf "codex", mkCfg ".codex/prompts" "md" "$ARGUMENTS"),
    (strOf "kilocode", mkCfg ".kilocode/workflows" "md" "$ARGUMENTS"),
    (strOf "auggie", mkCfg ".augment/commands" "md" "$ARGUMENTS"),
    (strOf "roo", mkCfg ".roo/commands" "md" "$ARGUMENTS"),
    (strOf "codebuddy", mkCfg ".codebuddy/commands" "md" "$ARGUMENTS"),
    (strOf "qoder", mkCfg ".qoder/commands" "md" "$ARGUMENTS"),
    (strOf "amp", mkCfg ".agents/commands" "md" "$ARGUMENTS"),
    (strOf "shai", mkCfg ".shai/commands" "md" "$ARGUMENTS"),
    (strOf "q", mkCfg ".amazonq/prompts" "md" "$ARGUMENTS"),
    (strOf "bob", mkCfg ".bob/commands" "md" "$ARGUMENTS") ]

/-! ## Script selection and placeholder substitution (lines 496-514) -/

/-- `script_key = "sh" if platform == "linux" else "ps"` (line 496). -/
def script_key (platform : Chars) : Chars :=
  if platform = strOf "linux" then strOf "sh" else strOf "ps"

/-- The visible stub for a missing script variant (line 504). -/
def missing_script_stub (key : Chars) : Chars :=
  strOf "(Missing " ++ key ++ strOf " script)"

/-- Lines 497-504: look the platform key up with default `""`; when the
selected value is empty, warn (second component `true`) and substitute the
stub. -/
def select_script (scripts : List (Chars × Chars)) (platform : Chars) : Chars × Bool :=
  let key := script_key platform
  let cmd := (getKey scripts key).getD []
  if cmd.isEmpty then (missing_script_stub key, true) else (cmd, false)

/-- Lines 507-511: replace `\x7bSCRIPT\x7d` with the selected script, then
`$ARGUMENTS`, then `\x7bARGS\x7d` with the profile's argument token. -/
def transform_body (body script_command arg_format : Chars) : Chars :=
  pyReplace (strOf "\x7bARGS\x7d") arg_format
    (pyReplace (strOf "$ARGUMENTS") arg_format
      (pyReplace (strOf "\x7bSCRIPT\x7d") script_command body))

/-- `rewrite_paths` (lines 450-461) is the identity. -/
def rewrite_paths (content : Chars) : Chars := content

/-! ## Output rendering (lines 527-539) -/

/-- The backslash/quote escaping computed at line 530 (`body_escaped`); the
emitted text at line 531 does not use it. -/
def escape_toml_body (body : Chars) : Chars :=
  pyReplace (strOf "\"") (strOf "\\\"") (pyReplace (strOf "\\") (strOf "\\\\") body)

/-- The f-string of line 531. -/
def render_toml (description body : Chars) : Chars :=
  strOf "description = \"" ++ description ++ strOf "\"\n\nprompt = \"\"\"\n"
    ++ body ++ strOf "\n\"\"\""

/-! ## `convert_command_file` (lines 464-539), modulo file I/O -/

inductive ConvertResult : Type
  /-- No registry entry for the requested environment: warn and skip
  (lines 478-481). -/
  | skipped
  /-- An output file `filename` with text `content` is written; `warned` is
  true when the missing-script warning fired (lines 499-504). -/
  | wrote (filename : Chars) (content : Chars) (warned : Bool)
  /-- An uncaught exception: a truthy top-level string entry under `scripts`
  reaches `scripts.get` (line 497) as a `str`, raising `AttributeError`. -/
  | error
deriving DecidableEq

/-- `convert_command_file` on a source file with stem `stem` and text
`content` (lines 464-539); file writing is abstracted into the returned
filename/content pair. -/
def convert_command_file (stem content ai platform : Chars) : ConvertResult :=
  match getKey AI_ENV_CONFIG ai with
  | none => ConvertResult.skipped
  | some config =>
    let pr := parse_frontmatter content
    let description :=
      match getKey pr.frontmatter (strOf "description") with
      | some (FMVal.str v) => v
      | some (FMVal.dict _) => []
      | none => []
    let scriptsTry : Option (List (Chars × Chars)) :=
      match getKey pr.frontmatter (strOf "scripts") with
      | some (FMVal.str v) =>
        if v.isEmpty then some (extract_scripts_from_content content) else none
      | some (FMVal.dict m) =>
        if m.isEmpty then some (extract_scripts_from_content content) else some m
      | none => some (extract_scripts_from_content content)
    match scriptsTry with
    | none => ConvertResult.error
    | some scripts =>
      let sel := select_script scripts platform
      let body := rewrite_paths (transform_body pr.body sel.1 config.arg_format)
      let filename := to_novel_command_name stem [] ++ '.' :: config.format
      let out :=
        if config.format = strOf "toml" then render_toml description body else body
      ConvertResult.wrote filename out sel.2

/-! ## `build_all` (lines 559-588) and the `all` branch of `main`
(lines 600-606)

`build_for_ai` performs file I/O; `build_all` is embedded generically over
the outcome of each cell, an `Except` value standing for "returned an output
directory" or "raised an exception that the cell boundary caught". -/

def exceptOk (r : Except Chars Chars) : Option Chars :=
  match r with
  | Except.ok d => some d
  | Except.error _ => none

/-- `build_all` (lines 559-588): skip (with a warning) environments missing
from the registry, then attempt every platform; a failed cell is logged and
excluded, and iteration continues. -/
def build_all (ais platforms : List Chars)
    (build_for_ai : Chars → Chars → Except Chars Chars) : List Chars :=
  ais.foldl
    (fun acc ai =>
      if (getKey AI_ENV_CONFIG ai).isSome = false then acc
      else
        platforms.foldl
          (fun acc2 p =>
            match build_for_ai ai p with
            | Except.ok d => acc2 ++ [d]
            | Except.error _ => acc2)
          acc)
    []

/-- Lines 600-606: exit status of `main` in the `all` branch — failure (1)
exactly when no package was built. -/
def main_all_exit (output_dirs : List Chars) : Nat :=
  if output_dirs.isEmpty then 1 else 0

/-! ## Claim-side auxiliary definitions -/

/-- The matrix result as the specification describes it: for each environment
in order, for each platform in order, keep the successful cells' output
directories and drop the failed ones. -/
def matrixOutputs (ais platforms : List Chars)
    (f : Chars → Chars → Except Chars Chars) : List Chars :=
  match ais with
  | [] => []
  | a :: rest =>
    platforms.filterMap (fun p => exceptOk (f a p)) ++ matrixOutputs rest platforms f

/-- De-quoting as claim C3 words it: trim whitespace, then remove one single
matching pair of surrounding quote characters. -/
def dequoteSinglePair (v : Chars) : Chars :=
  let t := pyStrip v
  if 2 ≤ t.length ∧ t.head? = t.getLast? ∧ (t.head? = some '"' ∨ t.head? = some '\x27')
  then (t.drop 1).dropLast else t

/-! ## Helper lemmas -/

theorem isPre_append (l y : Chars) : isPre l (l ++ y) = true := by
  induction l with
  | nil => rfl
  | cons a as ih => simp [isPre, ih]

theorem isSuf_append (x ext : Chars) : isSuf ext (x ++ ext) = true := by
  unfold isSuf
  rw [List.reverse_append]
  exact isPre_append ext.reverse x.reverse

theorem getKey_setKey {α : Type} (m : List (Chars × α)) (k : Chars) (v : α) :
    getKey (setKey m k v) k = some v := by
  induction m with
  | nil => simp [setKey, getKey]
  | cons p rest ih =>
    obtain ⟨k0, v0⟩ := p
    by_cases h : k0 = k
    · simp [setKey, getKey, h]
    · simp [setKey, getKey, h, ih]

theorem filter_of_all {p : Chars → Bool} :
    ∀ l : List Chars, (∀ a ∈ l, p a = true) → l.filter p = l := by
  intro l
  induction l with
  | nil => intro _; rfl
  | cons a rest ih =>
    intro h
    rw [List.filter_cons, if_pos (h a (List.mem_cons_self a rest))]
    rw [ih (fun b hb => h b (List.mem_cons_of_mem a hb))]

theorem foldl_cells (f : Chars → Chars → Except Chars Chars) (ai : Chars)
    (ps : List Chars) : ∀ acc : List Chars,
    ps.foldl (fun acc2 p =>
        match f ai p with
        | Except.ok d => acc2 ++ [d]
        | Except.error _ => acc2) acc
      = acc ++ ps.filterMap (fun p => exceptOk (f ai p)) := by
  induction ps with
  | nil => intro acc; simp
  | cons p rest ih =>
    intro acc
    simp only [List.foldl_cons, List.filterMap_cons]
    cases h : f ai p with
    | ok d => simp [exceptOk, ih, List.append_assoc]
    | error e => simp [exceptOk, ih]

theorem build_all_foldl (platforms : List Chars)
    (f : Chars → Chars → Except Chars Chars) :
    ∀ (ais acc : List Chars),
      ais.foldl (fun acc ai =>
          if (getKey AI_ENV_CONFIG ai).isSome = false then acc
          else
            platforms.foldl (fun acc2 p =>
                match f ai p with
                | Except.ok d => acc2 ++ [d]
                | Except.error _ => acc2) acc) acc
        = acc ++ matrixOutputs (ais.filter (fun a => (getKey AI_ENV_CONFIG a).isSome))
            platforms f := by
  intro ais
  induction ais with
  | nil => intro acc; simp [matrixOutputs]
  | cons a rest ih =>
    intro acc
    simp only [List.foldl_cons, List.filter_cons]
    cases hb : (getKey AI_ENV_CONFIG a).isSome with
    | false =>
      rw [if_pos rfl, if_neg (by rw [Bool.false_eq_true]; exact not_false)]
      exact ih acc
    | true =>
      rw [if_neg (by rw [Bool.true_eq_false]; exact not_false), if_pos rfl]
      rw [ih, foldl_cells]
      show _ = acc ++ (List.filterMap (fun p => exceptOk (f a p)) platforms
        ++ matrixOutputs (rest.filter (fun a => (getKey AI_ENV_CONFIG a).isSome)) platforms f)
      rw [List.append_assoc]

/-! ## Claim theorems -/

/-- C1: rendering in the `toml` format emits exactly the
`description = "<description>"` line, a blank line, a `prompt = """` line,
the raw body unescaped, and a closing `"""` line; the backslash/quote-escaped
variant computed before emission (`escape_toml_body`) is not the text that is
emitted, as the concrete body `a\b` shows, and a real pipeline run through the
`gemini` profile embeds an unescaped quote in the output. -/
theorem toml_output_embeds_raw_body :
    (∀ d b : Chars, render_toml d b
        = strOf "description = \"" ++ d ++ strOf "\"\n\nprompt = \"\"\"\n"
            ++ b ++ strOf "\n\"\"\"")
    ∧ escape_toml_body (strOf "a\\b") ≠ strOf "a\\b"
    ∧ render_toml [] (strOf "a\\b")
        ≠ strOf "description = \"\"\n\nprompt = \"\"\"\n"
            ++ escape_toml_body (strOf "a\\b") ++ strOf "\n\"\"\""
    ∧ convert_command_file (strOf "plan") (strOf "hi \"x\"") (strOf "gemini")
        (strOf "linux")
      = ConvertResult.wrote (strOf "novel.plan.toml")
          (strOf "description = \"\"\n\nprompt = \"\"\"\nhi \"x\"\n\"\"\"") true :=
  ⟨fun _ _ => rfl, by decide, by decide, by decide⟩

/-- C2: on input that does not start with `---`, or whose `"---"`-split has
fewer than three segments, `parse_frontmatter` returns empty front matter and
the unmodified text (and, being a total function, raises no error). -/
theorem parse_frontmatter_identity_without_delimiter (content : Chars)
    (h : isPre (strOf "---") content = false
          ∨ (splitTripleDashMax 2 content).length < 3) :
    parse_frontmatter content = { frontmatter := [], body := content } := by
  unfold parse_frontmatter
  rcases h with h | h
  · simp [h]
  · by_cases hp : isPre (strOf "---") content = false
    · simp [hp]
    · simp [hp, h]

theorem parse_frontmatter_identity_witness :
    (isPre (strOf "---") (strOf "hello world") = false
      ∨ (splitTripleDashMax 2 (strOf "hello world")).length < 3)
    ∧ parse_frontmatter (strOf "hello world")
        = { frontmatter := [], body := strOf "hello world" } :=
  ⟨Or.inl (by decide),
   parse_frontmatter_identity_without_delimiter _ (Or.inl (by decide))⟩

/-- C3 counterexample: the claim says nested `key: value` lines are stored
with both key and value trimmed of whitespace and of a single pair of
surrounding quote characters.  The code instead strips every leading/trailing
quote from values (`.strip('"').strip("'")`) and never de-quotes keys: the
nested line `  sh: ""x""` is stored as value `x` (the single-pair reading
gives `"x"`), and the nested line `  "sh": x` is stored under key `"sh"`
(quotes kept), not `sh`. -/
theorem nested_dequote_counterexample :
    (parse_frontmatter (strOf "---\nscripts:\n  sh: \"\"x\"\"\n---\n")).frontmatter
      = [(strOf "scripts", FMVal.dict [(strOf "sh", strOf "x")])]
    ∧ dequoteSinglePair (strOf " \"\"x\"\"") = strOf "\"x\""
    ∧ strOf "x" ≠ strOf "\"x\""
    ∧ (parse_frontmatter (strOf "---\nscripts:\n  \"sh\": x\n---\n")).frontmatter
      = [(strOf "scripts", FMVal.dict [(strOf "\"sh\"", strOf "x")])]
    ∧ strOf "\"sh\"" ≠ strOf "sh" :=
  ⟨by decide, by decide, by decide, by decide, by decide⟩

/-- C3 (amended): in nested mode every line beginning with a space or tab and
containing `:` is stored in the `scripts` mapping with the key trimmed of
whitespace only and the value trimmed of whitespace and stripped of all
leading/trailing double quotes and then single quotes; the first colon line
not beginning with leading whitespace ends nested mode and is stored as a
top-level entry in the same pass; lines processed outside nested mode never
touch the scripts mapping; and the nested mapping is attached under the
`scripts` key only when it is non-empty. -/
theorem nested_scripts_parsing_amended :
    (∀ (st : FMState) (line : Chars), st.in_scripts = true →
        startsWithSpaceOrTab line = true →
        pyStrip line ≠ strOf "scripts:" →
        ':' ∈ pyStrip line →
        processLine st line
          = { st with scripts := setKey st.scripts (pyStrip (splitColon (pyStrip line)).1) (dequote (splitColon (pyStrip line)).2) })
    ∧ (∀ (st : FMState) (line : Chars), st.in_scripts = true →
        startsWithSpaceOrTab line = false →
        pyStrip line ≠ strOf "scripts:" →
        ':' ∈ pyStrip line →
        processLine st line
          = { st with in_scripts := false,
                      frontmatter := setKey st.frontmatter (pyStrip (splitColon (pyStrip line)).1) (dequote (splitColon (pyStrip line)).2) })
    ∧ (∀ (st : FMState) (line : Chars), st.in_scripts = false →
        pyStrip line ≠ strOf "scripts:" →
        (processLine st line).scripts = st.scripts
          ∧ (processLine st line).in_scripts = false)
    ∧ (∀ st : FMState, st.scripts = [] →
        attach_scripts st = st.frontmatter.map (fun p => (p.1, FMVal.str p.2)))
    ∧ (∀ st : FMState, st.scripts ≠ [] →
        getKey (attach_scripts st) (strOf "scripts")
          = some (FMVal.dict st.scripts))
    ∧ (∀ content : Chars, isPre (strOf "---") content = true →
        ¬ (splitTripleDashMax 2 content).length < 3 →
        parse_frontmatter content
          = { frontmatter := attach_scripts (parse_fm_lines (pyStrip ((splitTripleDashMax 2 content).get! 1))),
              body := (splitTripleDashMax 2 content).get! 2 }) := by
  refine ⟨?_, ?_, ?_, ?_, ?_, ?_⟩
  · intro st line h1 h2 h3 h4
    have hne : pyStrip line ≠ [] := by
      intro he; rw [he] at h4; exact List.not_mem_nil ':' h4
    simp [processLine, hne, h3, h1, h2, h4]
  · intro st line h1 h2 h3 h4
    have hne : pyStrip line ≠ [] := by
      intro he; rw [he] at h4; exact List.not_mem_nil ':' h4
    simp [processLine, hne, h3, h1, h2, h4]
  · intro st line h1 h3
    by_cases h0 : pyStrip line = []
    · simp [processLine, h0, h1]
    · by_cases h4 : ':' ∈ pyStrip line
      · simp [processLine, h0, h3, h1, h4]
      · simp [processLine, h0, h3, h1, h4]
  · intro st h
    simp [attach_scripts, h]
  · intro st h
    have h2 : st.scripts.isEmpty = false := by
      cases hs : st.scripts with
      | nil => exact absurd hs h
      | cons a t => rfl
    simp [attach_scripts, h2, getKey_setKey]
  · intro content h1 h2
    simp [parse_frontmatter, h1, h2]

theorem nested_scripts_parsing_witness :
    ((⟨true, [], []⟩ : FMState).in_scripts = true
      ∧ startsWithSpaceOrTab (strOf "  sh: \x27run.sh\x27") = true
      ∧ pyStrip (strOf "  sh: \x27run.sh\x27") ≠ strOf "scripts:"
      ∧ ':' ∈ pyStrip (strOf "  sh: \x27run.sh\x27"))
    ∧ processLine ⟨true, [], []⟩ (strOf "  sh: \x27run.sh\x27")
        = ⟨true, [(strOf "sh", strOf "run.sh")], []⟩ :=
  ⟨⟨rfl, by decide, by decide, by decide⟩,
   (nested_scripts_parsing_amended.1 ⟨true, [], []⟩ (strOf "  sh: \x27run.sh\x27")
      rfl (by decide) (by decide) (by decide)).trans (by decide)⟩

/-- C4: the name normaliser agrees everywhere with the specification's rule
(drop `.md` case-insensitively, drop the leading `novel-` case-insensitively,
split on `-`, discard empty fragments, join with `.` under the `novel.`
prefix, and fall back to the input when no fragments remain); in particular
`writer-new ↦ novel.writer.new`, `novel-setup ↦ novel.setup`, and
`"" ↦ ""`.  It is a total Lean function, so it cannot fail. -/
theorem to_novel_command_name_normalizes :
    (∀ s : Chars, to_novel_command_name s [] = normalizeSpec s)
    ∧ to_novel_command_name (strOf "writer-new") [] = strOf "novel.writer.new"
    ∧ to_novel_command_name (strOf "novel-setup") [] = strOf "novel.setup"
    ∧ to_novel_command_name (strOf "") [] = strOf "" := by
  refine ⟨fun s => ?_, by decide, by decide, by decide⟩
  by_cases h : (novel_name_parts s).isEmpty = true
  · simp [to_novel_command_name, normalizeSpec, h]
  · simp [to_novel_command_name, normalizeSpec, h]

/-- C5: selection reads key `sh` exactly for platform `linux` and `ps` for
any other platform; an absent key yields the `(Missing <key> script)` stub
together with the (non-fatal) warning flag, never an error; the spec's two
concrete cases hold; and a full pipeline run bakes the stub into the rendered
output while the conversion still completes. -/
theorem select_script_platform_and_stub :
    (∀ platform : Chars, platform = strOf "linux" →
        script_key platform = strOf "sh")
    ∧ (∀ platform : Chars, platform ≠ strOf "linux" →
        script_key platform = strOf "ps")
    ∧ (∀ (scripts : List (Chars × Chars)) (platform : Chars),
        getKey scripts (script_key platform) = none →
        select_script scripts platform
          = (missing_script_stub (script_key platform), true))
    ∧ select_script [(strOf "sh", strOf "a"), (strOf "ps", strOf "b")]
        (strOf "linux") = (strOf "a", false)
    ∧ select_script [] (strOf "win") = (strOf "(Missing ps script)", true)
    ∧ convert_command_file (strOf "setup") (strOf "use \x7bSCRIPT\x7d")
        (strOf "claude") (strOf "win")
      = ConvertResult.wrote (strOf "novel.setup.md")
          (strOf "use (Missing ps script)") true := by
  refine ⟨?_, ?_, ?_, by decide, by decide, by decide⟩
  · intro p h; simp [script_key, h]
  · intro p h; simp [script_key, h]
  · intro scripts p h; simp [select_script, h]

theorem select_script_stub_witness :
    (strOf "win" ≠ strOf "linux"
      ∧ getKey ([] : List (Chars × Chars)) (script_key (strOf "win")) = none)
    ∧ script_key (strOf "win") = strOf "ps"
    ∧ select_script [] (strOf "win")
        = (missing_script_stub (script_key (strOf "win")), true) :=
  ⟨⟨by decide, by decide⟩,
   select_script_platform_and_stub.2.1 (strOf "win") (by decide),
   select_script_platform_and_stub.2.2.1 [] (strOf "win") (by decide)⟩

/-- C6: `build_all` visits the environment × platform matrix sequentially
(restricted to environments present in the registry — with an all-registered
input it is the full matrix), keeps exactly the successful cells' output
directories, drops each failed cell and continues, and the `all` branch of
`main` reports failure (exit 1) exactly when the resulting list is empty. -/
theorem build_all_matrix_collects_successes :
    ∀ (ais platforms : List Chars) (f : Chars → Chars → Except Chars Chars),
      build_all ais platforms f
        = matrixOutputs (ais.filter (fun a => (getKey AI_ENV_CONFIG a).isSome))
            platforms f
      ∧ ((∀ a ∈ ais, (getKey AI_ENV_CONFIG a).isSome = true) →
          build_all ais platforms f = matrixOutputs ais platforms f)
      ∧ (main_all_exit (build_all ais platforms f) = 1
          ↔ build_all ais platforms f = []) := by
  intro ais platforms f
  have key : build_all ais platforms f
      = matrixOutputs (ais.filter (fun a => (getKey AI_ENV_CONFIG a).isSome))
          platforms f := by
    unfold build_all
    rw [build_all_foldl]
    rfl
  refine ⟨key, ?_, ?_⟩
  · intro hall
    rw [key, filter_of_all ais hall]
  · cases hb : build_all ais platforms f with
    | nil => simp [main_all_exit, hb]
    | cons d rest => simp [main_all_exit, hb]

theorem build_all_matrix_witness :
    (∀ a ∈ [strOf "cursor"], (getKey AI_ENV_CONFIG a).isSome = true)
    ∧ build_all [strOf "cursor"] [strOf "linux", strOf "win"]
        (fun a p => Except.ok (a ++ '-' :: p))
      = matrixOutputs [strOf "cursor"] [strOf "linux", strOf "win"]
          (fun a p => Except.ok (a ++ '-' :: p))
    ∧ build_all [strOf "cursor"] [strOf "linux", strOf "win"]
        (fun a p => Except.ok (a ++ '-' :: p))
      = [strOf "cursor-linux", strOf "cursor-win"] :=
  ⟨by decide,
   (build_all_matrix_collects_successes [strOf "cursor"]
      [strOf "linux", strOf "win"] (fun a p => Except.ok (a ++ '-' :: p))).2.1
     (by decide),
   by decide⟩

/-- C7: the `cursor` profile is a literal alias of `cursor-agent` — the two
registry entries are the same `(.cursor/commands, md, $ARGUMENTS)`
configuration — and converting any source document for any platform produces
identical output (same file name, same content, same warning) under the two
profiles. -/
theorem cursor_alias_equivalence :
    getKey AI_ENV_CONFIG (strOf "cursor") = getKey AI_ENV_CONFIG (strOf "cursor-agent")
    ∧ getKey AI_ENV_CONFIG (strOf "cursor")
        = some (mkCfg ".cursor/commands" "md" "$ARGUMENTS")
    ∧ ∀ stem content platform : Chars,
        convert_command_file stem content (strOf "cursor") platform
          = convert_command_file stem content (strOf "cursor-agent") platform := by
  refine ⟨by decide, by decide, ?_⟩
  intro stem content platform
  unfold convert_command_file
  rw [show getKey AI_ENV_CONFIG (strOf "cursor")
      = getKey AI_ENV_CONFIG (strOf "cursor-agent") from by decide]

/-- C8: a scripts mapping that carries the platform key with an empty-string
value is handled exactly like one lacking the key — the selected value's
emptiness, not key presence, drives the stub decision — and a full pipeline
run over a document whose front matter maps `sh` to `""` bakes the stub into
the output and raises the warning flag. -/
theorem empty_script_value_treated_as_missing :
    (∀ (s s2 : List (Chars × Chars)) (platform : Chars),
        getKey s (script_key platform) = some [] →
        getKey s2 (script_key platform) = none →
        select_script s platform = select_script s2 platform
          ∧ select_script s platform
              = (missing_script_stub (script_key platform), true))
    ∧ convert_command_file (strOf "writer-new")
        (strOf "---\nscripts:\n  sh: \"\"\n---\nrun \x7bSCRIPT\x7d now")
        (strOf "claude") (strOf "linux")
      = ConvertResult.wrote (strOf "novel.writer.new.md")
          (strOf "\nrun (Missing sh script) now") true := by
  refine ⟨?_, by decide⟩
  intro s s2 p h1 h2
  constructor
  · simp [select_script, h1, h2]
  · simp [select_script, h1]

theorem empty_script_value_witness :
    (getKey [(strOf "sh", ([] : Chars))] (script_key (strOf "linux")) = some []
      ∧ getKey ([] : List (Chars × Chars)) (script_key (strOf "linux")) = none)
    ∧ select_script [(strOf "sh", [])] (strOf "linux")
        = select_script [] (strOf "linux") :=
  ⟨⟨by decide, by decide⟩,
   (empty_script_value_treated_as_missing.1 [(strOf "sh", [])] [] (strOf "linux")
      (by decide) (by decide)).1⟩

/-- C9: body substitution replaces `\x7bSCRIPT\x7d` first and the argument
placeholders (`$ARGUMENTS`, then `\x7bARGS\x7d`) afterwards; consequently an
argument placeholder occurring inside the selected script text is itself
rewritten to the destination profile's token, as the general equation for a
body consisting of the script placeholder and the concrete instance show. -/
theorem placeholder_substitution_order :
    (∀ body script tok : Chars,
        transform_body body script tok
          = pyReplace (strOf "\x7bARGS\x7d") tok
              (pyReplace (strOf "$ARGUMENTS") tok
                (pyReplace (strOf "\x7bSCRIPT\x7d") script body)))
    ∧ (∀ script tok : Chars,
        transform_body (strOf "\x7bSCRIPT\x7d") script tok
          = pyReplace (strOf "\x7bARGS\x7d") tok
              (pyReplace (strOf "$ARGUMENTS") tok script))
    ∧ transform_body (strOf "\x7bSCRIPT\x7d") (strOf "run $ARGUMENTS")
        (strOf "\x7b\x7bargs\x7d\x7d")
      = strOf "run \x7b\x7bargs\x7d\x7d" := by
  refine ⟨fun _ _ _ => rfl, ?_, by decide⟩
  intro script tok
  have h : pyReplace (strOf "\x7bSCRIPT\x7d") script (strOf "\x7bSCRIPT\x7d")
      = script := by
    have h0 : pyReplace (strOf "\x7bSCRIPT\x7d") script (strOf "\x7bSCRIPT\x7d")
        = script ++ [] := rfl
    simpa using h0
  show pyReplace (strOf "\x7bARGS\x7d") tok
      (pyReplace (strOf "$ARGUMENTS") tok
        (pyReplace (strOf "\x7bSCRIPT\x7d") script (strOf "\x7bSCRIPT\x7d"))) = _
  rw [h]

/-- C10: when no fragments remain the normaliser returns the original input
with no extension appended, while every non-fallback result ends with the
requested extension; concretely `novel-` with extension `.md` yields
`novel-`, not `novel-.md`. -/
theorem name_fallback_no_extension :
    (∀ s ext : Chars, (novel_name_parts s).isEmpty = true →
        to_novel_command_name s ext = s)
    ∧ (∀ s ext : Chars, (novel_name_parts s).isEmpty = false →
        isSuf ext (to_novel_command_name s ext) = true)
    ∧ to_novel_command_name (strOf "novel-") (strOf ".md") = strOf "novel-" := by
  refine ⟨?_, ?_, by decide⟩
  · intro s ext h; simp [to_novel_command_name, h]
  · intro s ext h
    simp only [to_novel_command_name, h]
    rw [if_neg Bool.false_ne_true]
    exact isSuf_append _ _

theorem name_fallback_witness :
    ((novel_name_parts (strOf "")).isEmpty = true
      ∧ to_novel_command_name (strOf "") (strOf ".md") = strOf "")
    ∧ ((novel_name_parts (strOf "writer-new")).isEmpty = false
      ∧ isSuf (strOf ".md")
          (to_novel_command_name (strOf "writer-new") (strOf ".md")) = true) :=
  ⟨⟨by decide, name_fallback_no_extension.1 (strOf "") (strOf ".md") (by decide)⟩,
   ⟨by decide,
    name_fallback_no_extension.2.1 (strOf "writer-new") (strOf ".md") (by decide)⟩⟩

end NovelKit
